import Mathlib

set_option autoImplicit false

/-!
Shallow embedding of the BaseMachine state-machine execution core
(`BaseMachine/state_machine.py`, `BaseMachine/action_utils.py`,
`BaseMachine/llm_helpers.py`), together with proofs about its
error handling, routing, retry, and resource-merging behaviour.

Machine-mutable bookkeeping is passed explicitly (type `V`), actions and
transitions are Lean functions returning `Except PyExc`, and the unbounded
`while True` loop of `StateMachine.process` becomes a fuel-indexed
recursion (`none` = fuel ran out, which never happens on terminating runs).
-/

/-- The Python exception classes the engine distinguishes: `RuntimeError`
(checked for the usage-limit marker), `ValueError`, `TypeError`, and any
other `Exception`. -/
inductive PyExc where
  | runtimeError (msg : String)
  | valueError (msg : String)
  | typeError (msg : String)
  | other (msg : String)
deriving DecidableEq, Repr

/-- Python str(e): the message carried by an exception. -/
def excMsg : PyExc → String
  | .runtimeError m => m
  | .valueError m => m
  | .typeError m => m
  | .other m => m

/-- Does the second list occur at the head of the first? -/
def listStartsWith : List Char → List Char → Bool
  | [], _ => true
  | _ :: _, [] => false
  | a :: as, b :: bs => a == b && listStartsWith as bs

/-- Does `needle` occur as a contiguous subsequence of the argument? -/
def listContainsSeq (needle : List Char) : List Char → Bool
  | [] => listStartsWith needle []
  | c :: cs => listStartsWith needle (c :: cs) || listContainsSeq needle cs

/-- Python `needle in hay` on strings. -/
def strContains (hay needle : String) : Bool :=
  listContainsSeq needle.data hay.data

/-- The marker the engine greps for in `RuntimeError` messages
(`state_machine.py:153`). -/
def usageLimitMsg : String := "Claude AI usage limit reached"

/-- The fatal-resource-exhaustion test: a `RuntimeError` whose message
contains the usage-limit marker (`state_machine.py:151-153`). -/
def isUsageLimit : PyExc → Bool
  | .runtimeError msg => strContains msg usageLimitMsg
  | _ => false

/-- One `logging.error` call made by `StateMachine.process`. -/
inductive LogEntry where
  | usageLimitReached (stateName : String)
  | runtimeErrorIn (stateName : String) (msg : String)
  | errorIn (stateName : String) (msg : String)
  | traceback
deriving DecidableEq, Repr

/-- An action function as the loop sees it: its declared parameter names
(`machine` first), how many additional local-variable names appear in
`__code__.co_varnames`, and its behaviour.  `run v none` is a call with no
keyword arguments (equivalently `**` applied to an empty dict); `run v (some bag)`
is a call with the nonempty keyword-argument bag `bag`. -/
structure ActionFn (V K R : Type) where
  params : List String
  localsCount : Nat
  run : V → Option K → Except PyExc (V × R)

/-- Model of `len(action_func.__code__.co_varnames)`: parameters plus locals
(`state_machine.py:128`). -/
def coVarnamesLen {V K R : Type} (a : ActionFn V K R) : Nat :=
  a.params.length + a.localsCount

/-- The calling-convention dispatch of `state_machine.py:128-136`: if
`len(co_varnames) > 1`, call with `kwargs = extra_args if extra_args else` the
empty dict; otherwise call with the machine alone. -/
def invokeAction {V K R : Type} (a : ActionFn V K R) (v : V) (extraArgs : Option K) :
    Except PyExc (V × R) :=
  if 1 < coVarnamesLen a then
    match extraArgs with
    | some bag => a.run v (some bag)
    | none => a.run v none
  else
    a.run v none

/-- The value returned by a `next_state_func`: a bare state name, a tuple of a
state name and an argument dict (`args = none` models an empty or absent
dict), or any other shape. -/
inductive TransRet (K : Type) where
  | name (s : String)
  | pair (s : String) (args : Option K)
  | badShape
deriving DecidableEq, Repr

/-- A registered state: the reserved `ExitState`, or a `BaseState` with its
name, action and (possibly absent) `next_state_func`. -/
inductive StateEntry (V K R : Type) where
  | exitSt
  | base (name : String) (action : ActionFn V K R)
      (nextStateFunc : Option (R → V → Except PyExc (TransRet K)))

/-- One entry of the `state_definitions` dict handed to the constructor. -/
structure StateDefn (V K R : Type) where
  action : ActionFn V K R
  nextStateFunc : Option (R → V → Except PyExc (TransRet K)) := none

/-- Model of `StateMachine._create_states` (`state_machine.py:103-114`): the entry
named Exit becomes `ExitState()`; every other entry becomes a `BaseState`. -/
def createStates {V K R : Type} (defs : List (String × StateDefn V K R)) :
    List (String × StateEntry V K R) :=
  defs.map (fun p =>
    if p.1 == "Exit" then (p.1, StateEntry.exitSt)
    else (p.1, StateEntry.base p.1 p.2.action p.2.nextStateFunc))

/-- Dictionary lookup, `self.states.get(name)`. -/
def statesGet {V K R : Type} (states : List (String × StateEntry V K R))
    (name : String) : Option (StateEntry V K R) :=
  (states.find? (fun p => p.1 == name)).map Prod.snd

/-- The constructed machine: its state table and current state. -/
structure Machine (V K R : Type) where
  states : List (String × StateEntry V K R)
  state : Option (StateEntry V K R)

/-- Model of `StateMachine.__init__` (`state_machine.py:89-93`): build the state table,
look up the initial state, and raise `ValueError` when it is absent. -/
def mkStateMachine {V K R : Type} (defs : List (String × StateDefn V K R))
    (initial : String) : Except PyExc (Machine V K R) :=
  let sts := createStates defs
  match statesGet sts initial with
  | some st => .ok ⟨sts, some st⟩
  | none => .error (.valueError
      ("Initial state " ++ initial ++ " is not defined in state_definitions."))

/-- Did an `Except` computation succeed (i.e. not raise)? -/
def isOkE {E A : Type} : Except E A → Bool
  | .ok _ => true
  | .error _ => false

deriving instance DecidableEq for Except

/-- What one call of `process()` yields: the returned value (`ok none` is
Python `None`, reached by falling off the loop after `break`), or a re-raised
exception, together with the final bookkeeping state and the log. -/
structure Outcome (V R : Type) where
  result : Except PyExc (Option R)
  vars : V
  log : List LogEntry
deriving DecidableEq, Repr

/-- The `except` clauses of `state_machine.py:151-168`: a `RuntimeError`
carrying the usage-limit marker is logged and re-raised; every other
exception is logged with a traceback and the loop `break`s, so `process`
falls off the end and returns `None`. -/
def handleExc {V R : Type} (stName : String) (e : PyExc) (v : V)
    (log : List LogEntry) : Outcome V R :=
  match e with
  | .runtimeError msg =>
    if strContains msg usageLimitMsg then
      ⟨.error e, v, log ++ [.usageLimitReached stName]⟩
    else
      ⟨.ok none, v, log ++ [.runtimeErrorIn stName msg, .traceback]⟩
  | _ => ⟨.ok none, v, log ++ [.errorIn stName (excMsg e), .traceback]⟩

/-- The `ValueError` message of `state_machine.py:149`. -/
def wrongShapeMsg : String :=
  "next_state_func must return a string or a tuple (state_name, args_dict)"

/-- The `TypeError` Python raises when a state was registered without a
`next_state_func` and the loop calls `None`. -/
def noCallableMsg : String := "NoneType object is not callable"

/-- The `while True` loop of `StateMachine.process` (`state_machine.py:116-168`),
indexed by fuel.  Arguments after the state table: fuel, `self.state`,
`previous_result`, `extra_args` (`none` = empty dict), the machine-mutable
bookkeeping, and the log accumulated so far. -/
def processLoop {V K R : Type} (states : List (String × StateEntry V K R)) :
    Nat → Option (StateEntry V K R) → Option R → Option K → V → List LogEntry →
    Option (Outcome V R)
  | 0, _, _, _, _, _ => none
  | _ + 1, none, prev, _, v, log => some ⟨.ok prev, v, log⟩
  | _ + 1, some .exitSt, prev, _, v, log => some ⟨.ok prev, v, log⟩
  | fuel + 1, some (.base nm a nOpt), _prev, extra, v, log =>
    match invokeAction a v extra with
    | .error e => some (handleExc nm e v log)
    | .ok (v1, result) =>
      match nOpt with
      | none => some (handleExc nm (.typeError noCallableMsg) v1 log)
      | some nextF =>
        match nextF result v1 with
        | .error e => some (handleExc nm e v1 log)
        | .ok (.pair s args) =>
          processLoop states fuel (some ((statesGet states s).getD .exitSt))
            (some result) args v1 log
        | .ok (.name s) =>
          processLoop states fuel (some ((statesGet states s).getD .exitSt))
            (some result) none v1 log
        | .ok .badShape => some (handleExc nm (.valueError wrongShapeMsg) v1 log)

/-- Run of `machine.process()` started from the constructed machine with empty
`previous_result`, empty `extra_args` and an empty log. -/
def stateMachineProcess {V K R : Type} (m : Machine V K R) (fuel : Nat) (v : V) :
    Option (Outcome V R) :=
  processLoop m.states fuel m.state none none v []

/-- Construct a machine from `state_definitions` and run it: the end-to-end
behaviour an embedding application sees. -/
def runMachine {V K R : Type} (defs : List (String × StateDefn V K R))
    (initial : String) (fuel : Nat) (v : V) :
    Except PyExc (Option (Outcome V R)) :=
  match mkStateMachine defs initial with
  | .error e => .error e
  | .ok m => .ok (stateMachineProcess m fuel v)

/-- The default of the `max_retries` parameter of `reliable_parse`
(`llm_helpers.py:49`). -/
def reliableParseDefaultMaxRetries : Nat := 3

/-- The default-provider retry loop of `reliable_parse`
(`llm_helpers.py:137-148`).  `call i` is the i-th issued request, yielding the
primary content field of the response (or raising).  Returns the number of
calls issued paired with `some` index of the accepted response, or `none` —
the `None` sentinel returned after `max_retries` unsuccessful attempts. -/
def reliableParseGo (call : Nat → Except PyExc String) (maxRetries : Nat) :
    Nat → Nat → Except PyExc (Nat × Option Nat)
  | retries, calls =>
    if _h : retries < maxRetries then
      match call calls with
      | .error e => .error e
      | .ok content =>
        if content == "" then reliableParseGo call maxRetries (retries + 1) (calls + 1)
        else .ok (calls + 1, some calls)
    else .ok (calls, none)
termination_by retries _ => maxRetries - retries
decreasing_by omega

/-- Entry point of `reliable_parse` for the standard (non-OpenRouter) provider branch:
retry counter starts at zero, no calls issued yet. -/
def reliable_parse (call : Nat → Except PyExc String) (maxRetries : Nat) :
    Except PyExc (Nat × Option Nat) :=
  reliableParseGo call maxRetries 0 0

/-- A record appended to `machine.analysis_result` by
`sub_state_machine_action`, one constructor per save option that stores
anything. -/
inductive SaveEntry (C R : Type) where
  | ctxOnly (c : C)
  | resOnly (r : Option R)
  | paired (c : C) (r : Option R)
deriving DecidableEq, Repr

/-- The engine bookkeeping fields of a machine instance that the composer
reads and merges (`state_machine.py:76-79`): message log, result log, token
counters. -/
structure Vars (C M R : Type) where
  messages : List M
  analysisResult : List (SaveEntry C R)
  totalInputTokens : Nat
  totalOutputTokens : Nat
deriving DecidableEq, Repr

/-- The `ValueError` message of `action_utils.py:230`. -/
def invalidSaveOptionMsg : String :=
  "Invalid save_option value. Choose from prompt, result, or both."

/-- Model of `sub_state_machine_action` (`action_utils.py:202-233`): build the child
machine, run its `process()` to completion, merge its counters and messages
into the parent, then record into the parent result log per `save_option`.
`subContext` is the freshly built `sub_context`; `subCtxMessages` is the
message list it carries (empty when the context class has none).  The outer
`none` means the child run exhausted its fuel. -/
def sub_state_machine_action {C M K R : Type}
    (subDefs : List (String × StateDefn (Vars C M R) K R))
    (subInitial : String) (subContext : C) (subCtxMessages : List M)
    (saveOption : String) (fuel : Nat) (parent : Vars C M R) :
    Option (Except PyExc (Vars C M R × Option R)) :=
  match mkStateMachine subDefs subInitial with
  | .error e => some (.error e)
  | .ok m =>
    match stateMachineProcess m fuel ⟨subCtxMessages, [], 0, 0⟩ with
    | none => none
    | some out =>
      match out.result with
      | .error e => some (.error e)
      | .ok subResult =>
        let merged : Vars C M R :=
          { messages := parent.messages ++ out.vars.messages,
            analysisResult := parent.analysisResult,
            totalInputTokens := parent.totalInputTokens + out.vars.totalInputTokens,
            totalOutputTokens := parent.totalOutputTokens + out.vars.totalOutputTokens }
        if saveOption == "prompt" then
          some (.ok ({ merged with
            analysisResult := merged.analysisResult ++ [.ctxOnly subContext] }, subResult))
        else if saveOption == "result" then
          some (.ok ({ merged with
            analysisResult := merged.analysisResult ++ [.resOnly subResult] }, subResult))
        else if saveOption == "both" then
          some (.ok ({ merged with
            analysisResult := merged.analysisResult ++ [.paired subContext subResult] }, subResult))
        else
          some (.error (.valueError invalidSaveOptionMsg))

/-- Model of `self.messages = getattr(self.context, "messages", [])`
(`state_machine.py:77`), under an explicit store of message lists so that
aliasing is observable: a context either carries a reference into the store
(its `messages` attribute) or not.  Returns the possibly extended store and
the reference the machine will append through. -/
def initMessages {M : Type} (store : List (List M)) (ctxMessagesRef : Option Nat) :
    List (List M) × Nat :=
  match ctxMessagesRef with
  | some r => (store, r)
  | none => (store ++ [[]], store.length)

/-- Read the list a reference points at (out-of-range reads give `[]`). -/
def storeGet {M : Type} : List (List M) → Nat → List M
  | [], _ => []
  | l :: _, 0 => l
  | _ :: ls, n + 1 => storeGet ls n

/-- Overwrite the list a reference points at. -/
def storeSet {M : Type} : List (List M) → Nat → List M → List (List M)
  | [], _, _ => []
  | _ :: ls, 0, v => v :: ls
  | l :: ls, n + 1, v => l :: storeSet ls n v

/-- Model of `machine.messages.append(m)`: mutate the referenced list in place. -/
def appendMessage {M : Type} (store : List (List M)) (r : Nat) (m : M) :
    List (List M) :=
  storeSet store r (storeGet store r ++ [m])

/-- A sequence of appends through the same reference, in order. -/
def appendMessages {M : Type} (store : List (List M)) (r : Nat) :
    List M → List (List M)
  | [] => store
  | m :: ms => appendMessages (appendMessage store r m) r ms

/-- A concrete machine-only action (declared parameter list `(machine)`,
no locals) that leaves the bookkeeping untouched and returns `r`. -/
def constAction (r : Nat) : ActionFn Nat Nat Nat :=
  ⟨["machine"], 0, fun v _ => .ok (v, r)⟩

/-- A concrete machine-only action that raises `e`. -/
def raiseAction (e : PyExc) : ActionFn Nat Nat Nat :=
  ⟨["machine"], 0, fun _ _ => .error e⟩

/-- Registry for the graceful-degradation scenario: state A succeeds with
result 1 and routes to B; the action of state B raises an ordinary
exception. -/
def c1Defs : List (String × StateDefn Nat Nat Nat) :=
  [("A", ⟨constAction 1, some (fun _ _ => .ok (.name "B"))⟩),
   ("B", ⟨raiseAction (.other "boom"), some (fun _ _ => .ok (.name "Exit"))⟩),
   ("Exit", ⟨constAction 0, none⟩)]

/-- Registry whose single real state has a transition returning a value of
the wrong shape. -/
def c2Defs : List (String × StateDefn Nat Nat Nat) :=
  [("A", ⟨constAction 1, some (fun _ _ => .ok .badShape)⟩),
   ("Exit", ⟨constAction 0, none⟩)]

/-- Registry whose single real state routes to a name absent from the
registry. -/
def c3Defs : List (String × StateDefn Nat Nat Nat) :=
  [("A", ⟨constAction 1, some (fun _ _ => .ok (.name "Missing"))⟩),
   ("Exit", ⟨constAction 0, none⟩)]

/-- Registry with no entry named Exit at all. -/
def c7Defs : List (String × StateDefn Nat Nat Nat) :=
  [("A", ⟨constAction 1, some (fun _ _ => .ok (.name "Exit"))⟩)]

/-- An action whose declared parameter list is exactly `(machine)` but whose
body has one local variable, so `co_varnames` has length 2.  It reports the
keyword-argument bag it was invoked with. -/
def c9Action : ActionFn Nat Nat (Option Nat) :=
  ⟨["machine"], 1, fun v k => .ok (v, k)⟩

/-- A no-op action over composer bookkeeping. -/
def varsNoopAction : ActionFn (Vars String String Nat) Nat Nat :=
  ⟨["machine"], 0, fun v _ => .ok (v, 0)⟩

/-- A child-machine action that ends the child with `inputTokens = 5`,
`outputTokens = 7`, `messages = [a, b]` and result 42. -/
def c4SubAction : ActionFn (Vars String String Nat) Nat Nat :=
  ⟨["machine"], 0, fun _ _ => .ok (⟨["a", "b"], [], 5, 7⟩, 42)⟩

/-- Child registry for the merge scenario: one working state, then Exit. -/
def c4SubDefs : List (String × StateDefn (Vars String String Nat) Nat Nat) :=
  [("S", ⟨c4SubAction, some (fun _ _ => .ok (.name "Exit"))⟩),
   ("Exit", ⟨varsNoopAction, none⟩)]

/-- Parent bookkeeping for the merge scenario: `inputTokens = 2`,
`outputTokens = 3`, `messages = [x]`. -/
def c4Parent : Vars String String Nat := ⟨["x"], [], 2, 3⟩

/-- A child-machine action raising the designated fatal
resource-exhaustion error. -/
def c6FatalAction : ActionFn (Vars String String Nat) Nat Nat :=
  ⟨["machine"], 0, fun _ _ => .error (.runtimeError usageLimitMsg)⟩

/-- Child registry whose single state raises the fatal error. -/
def c6SubDefs : List (String × StateDefn (Vars String String Nat) Nat Nat) :=
  [("F", ⟨c6FatalAction, none⟩)]

/-! Helper lemmas (shared; none of these is a claim theorem). -/

/-- With a non-fatal exception, both except clauses end in `break`, so
`process` falls off the loop and returns `None`. -/
lemma handleExc_not_fatal {V R : Type} (nm : String) (e : PyExc) (v : V)
    (log : List LogEntry) (h : isUsageLimit e = false) :
    (handleExc nm e v log : Outcome V R).result = .ok none := by
  cases e with
  | runtimeError msg =>
      simp only [isUsageLimit] at h
      simp [handleExc, h]
  | valueError msg => rfl
  | typeError msg => rfl
  | other msg => rfl

/-- A fatal usage-limit error is logged and re-raised unmodified. -/
lemma handleExc_fatal {V R : Type} (nm : String) (e : PyExc) (v : V)
    (log : List LogEntry) (h : isUsageLimit e = true) :
    (handleExc nm e v log : Outcome V R)
      = ⟨.error e, v, log ++ [.usageLimitReached nm]⟩ := by
  cases e with
  | runtimeError msg =>
      simp only [isUsageLimit] at h
      simp [handleExc, h]
  | valueError msg => simp [isUsageLimit] at h
  | typeError msg => simp [isUsageLimit] at h
  | other msg => simp [isUsageLimit] at h

lemma storeSet_length {M : Type} :
    ∀ (store : List (List M)) (r : Nat) (v : List M),
      (storeSet store r v).length = store.length := by
  intro store
  induction store with
  | nil => intro r v; rfl
  | cons l ls ih =>
      intro r v
      cases r with
      | zero => rfl
      | succ n => simp [storeSet, ih]

lemma storeGet_storeSet_self {M : Type} :
    ∀ (store : List (List M)) (r : Nat) (v : List M),
      r < store.length → storeGet (storeSet store r v) r = v := by
  intro store
  induction store with
  | nil => intro r v h; simp at h
  | cons l ls ih =>
      intro r v h
      cases r with
      | zero => rfl
      | succ n =>
          simp only [List.length_cons, Nat.succ_lt_succ_iff] at h
          simpa [storeSet, storeGet] using ih n v h

lemma storeGet_storeSet_ne {M : Type} :
    ∀ (store : List (List M)) (j r : Nat) (v : List M),
      j ≠ r → storeGet (storeSet store j v) r = storeGet store r := by
  intro store
  induction store with
  | nil => intro j r v _; rfl
  | cons l ls ih =>
      intro j r v hne
      cases j with
      | zero =>
          cases r with
          | zero => exact absurd rfl hne
          | succ m => rfl
      | succ n =>
          cases r with
          | zero => rfl
          | succ m =>
              simpa [storeSet, storeGet] using ih n m v (by omega)

lemma appendMessages_length {M : Type} :
    ∀ (ms : List M) (store : List (List M)) (r : Nat),
      (appendMessages store r ms).length = store.length := by
  intro ms
  induction ms with
  | nil => intro store r; rfl
  | cons m ms ih =>
      intro store r
      simp [appendMessages, ih, appendMessage, storeSet_length]

/-- Appending through a valid reference extends exactly the referenced
list, in order. -/
lemma appendMessages_storeGet {M : Type} :
    ∀ (ms : List M) (store : List (List M)) (r : Nat), r < store.length →
      storeGet (appendMessages store r ms) r = storeGet store r ++ ms := by
  intro ms
  induction ms with
  | nil => intro store r _; simp [appendMessages]
  | cons m ms ih =>
      intro store r h
      rw [appendMessages]
      rw [ih (appendMessage store r m) r (by simp [appendMessage, storeSet_length, h])]
      rw [appendMessage, storeGet_storeSet_self store r _ h]
      simp

/-- Appending through one reference leaves every other cell untouched. -/
lemma appendMessages_storeGet_ne {M : Type} :
    ∀ (ms : List M) (store : List (List M)) (j r : Nat), j ≠ r →
      storeGet (appendMessages store j ms) r = storeGet store r := by
  intro ms
  induction ms with
  | nil => intro store j r _; rfl
  | cons m ms ih =>
      intro store j r hne
      rw [appendMessages, ih (appendMessage store j m) j r hne,
        appendMessage, storeGet_storeSet_ne store j r _ hne]

lemma storeGet_append_len {M : Type} :
    ∀ (store : List (List M)) (v : List M),
      storeGet (store ++ [v]) store.length = v := by
  intro store
  induction store with
  | nil => intro v; rfl
  | cons l ls ih => intro v; simpa [storeGet] using ih v

lemma storeGet_append_lt {M : Type} :
    ∀ (store : List (List M)) (v : List M) (i : Nat), i < store.length →
      storeGet (store ++ [v]) i = storeGet store i := by
  intro store
  induction store with
  | nil => intro v i h; simp at h
  | cons l ls ih =>
      intro v i h
      cases i with
      | zero => rfl
      | succ n =>
          simp only [List.length_cons, Nat.succ_lt_succ_iff] at h
          simpa [storeGet] using ih v n h

/-- Running `reliable_parse` against nothing but empty-content responses
consumes the attempts one by one and issues one call per attempt. -/
lemma reliableParseGo_all_empty (call : Nat → Except PyExc String) (maxRetries : Nat) :
    ∀ (k retries calls : Nat), retries + k = maxRetries →
      (∀ i, i < k → call (calls + i) = .ok "") →
      reliableParseGo call maxRetries retries calls = .ok (calls + k, none) := by
  intro k
  induction k with
  | zero =>
      intro retries calls hsum _
      unfold reliableParseGo
      simp [show ¬retries < maxRetries by omega]
  | succ k ih =>
      intro retries calls hsum hempty
      unfold reliableParseGo
      have h0 : call calls = .ok "" := by simpa using hempty 0 (by omega)
      simp only [show retries < maxRetries by omega, dite_true, h0]
      have := ih (retries + 1) (calls + 1) (by omega)
        (fun i hi => by simpa [Nat.add_assoc, Nat.add_comm 1 i] using hempty (i + 1) (by omega))
      simpa [show calls + 1 + k = calls + (k + 1) by omega] using this

/-! Claim theorems. -/

/-- C1 counterexample.  State A succeeds with result 1, state B raises an
ordinary exception.  `process()` indeed does not raise, but it returns `None`
(the loop `break`s and the function falls off its end), not A's result 1 —
refuting the claim that the last successfully computed result is returned. -/
theorem c1_counterexample :
    runMachine c1Defs "A" 5 0
      = .ok (some ⟨.ok none, 0, [.errorIn "B" "boom", .traceback]⟩)
    ∧ (Except.ok (none : Option Nat) : Except PyExc (Option Nat))
      ≠ .ok (some 1) :=
  ⟨rfl, by decide⟩

/-- C1 (amended): when a state's action — or its transition — raises an
ordinary (non-usage-limit) exception, `process()` does not raise: the
exception is caught and logged, the loop breaks, and `process()` returns
`None`, discarding the last successfully computed result. -/
theorem c1_ordinary_error_returns_none {V K R : Type}
    (states : List (String × StateEntry V K R)) (fuel : Nat) (nm : String)
    (a : ActionFn V K R)
    (nOpt : Option (R → V → Except PyExc (TransRet K)))
    (nextF : R → V → Except PyExc (TransRet K))
    (prev : Option R) (extra : Option K) (v v1 : V) (r : R)
    (log : List LogEntry) (e : PyExc) :
    (invokeAction a v extra = .error e → isUsageLimit e = false →
      ∃ out, processLoop states (fuel + 1) (some (.base nm a nOpt)) prev extra v log
          = some out ∧ out.result = .ok none)
    ∧ (invokeAction a v extra = .ok (v1, r) → nextF r v1 = .error e →
        isUsageLimit e = false →
      ∃ out, processLoop states (fuel + 1) (some (.base nm a (some nextF))) prev extra v log
          = some out ∧ out.result = .ok none) := by
  constructor
  · intro hA hF
    exact ⟨handleExc nm e v log, by simp [processLoop, hA],
      handleExc_not_fatal nm e v log hF⟩
  · intro hA hN hF
    exact ⟨handleExc nm e v1 log, by simp [processLoop, hA, hN],
      handleExc_not_fatal nm e v1 log hF⟩

/-- C1 witness: the amended theorem applied to the concrete failing state B
with A's result 1 pending. -/
theorem c1_witness :
    ∃ out, processLoop ([] : List (String × StateEntry Nat Nat Nat)) 3
        (some (.base "B" (raiseAction (.other "boom")) none)) (some 1) none 0 []
        = some out ∧ out.result = .ok none :=
  (c1_ordinary_error_returns_none [] 2 "B" (raiseAction (.other "boom")) none
    (fun _ _ => .ok .badShape) (some 1) none 0 0 0 [] (.other "boom")).1 rfl rfl

/-- C2 counterexample.  A transition returning a wrong-shape value makes the
loop raise `ValueError(wrongShapeMsg)`, but the blanket except-clause of the
very same loop catches and logs it: `process()` returns `None` instead of
letting the error propagate to the caller, refuting the claim. -/
theorem c2_counterexample :
    runMachine c2Defs "A" 5 0
      = .ok (some ⟨.ok none, 0, [.errorIn "A" wrongShapeMsg, .traceback]⟩)
    ∧ (Except.ok (none : Option Nat) : Except PyExc (Option Nat))
      ≠ .error (.valueError wrongShapeMsg) :=
  ⟨rfl, by decide⟩

/-- C2 (amended): a transition returning a value that is neither a string nor
a tuple makes the loop raise a typed `ValueError` ("next_state_func must
return a string or a tuple"), but that error is immediately caught by the
loop's own generic exception handler, logged with the failing state's name,
and `process()` returns `None` to the caller rather than propagating it. -/
theorem c2_bad_shape_caught {V K R : Type}
    (states : List (String × StateEntry V K R)) (fuel : Nat) (nm : String)
    (a : ActionFn V K R) (nextF : R → V → Except PyExc (TransRet K))
    (prev : Option R) (extra : Option K) (v v1 : V) (r : R)
    (log : List LogEntry) :
    invokeAction a v extra = .ok (v1, r) → nextF r v1 = .ok .badShape →
    processLoop states (fuel + 1) (some (.base nm a (some nextF))) prev extra v log
      = some ⟨.ok none, v1, log ++ [.errorIn nm wrongShapeMsg, .traceback]⟩ := by
  intro hA hN
  simp [processLoop, hA, hN, handleExc, excMsg]

/-- C2 witness: the amended theorem applied to a concrete wrong-shape
transition. -/
theorem c2_witness :
    processLoop ([] : List (String × StateEntry Nat Nat Nat)) 3
      (some (.base "A" (constAction 1) (some (fun _ _ => .ok .badShape))))
      none none 0 []
      = some ⟨.ok none, 0, [.errorIn "A" wrongShapeMsg, .traceback]⟩ :=
  c2_bad_shape_caught [] 2 "A" (constAction 1) (fun _ _ => .ok .badShape)
    none none 0 0 1 [] rfl rfl

/-- C3 counterexample.  The transition routes to the unknown name "Missing":
`process()` substitutes Exit and returns A's result without raising, but the
log is empty — no warning is ever logged, refuting the claim's "logs an
observable warning" (the `states.get(..., ExitState())` fallback at
`state_machine.py:143-146` has no logging call). -/
theorem c3_counterexample :
    runMachine c3Defs "A" 5 0 = .ok (some ⟨.ok (some 1), 0, []⟩) := rfl

/-- C3 (amended): a transition returning a name absent from the registry
does not make `process()` raise — the engine substitutes the Exit state and
proceeds exactly as though Exit had been returned — but it does so silently:
no warning (indeed no log entry at all) is emitted. -/
theorem c3_unknown_name_fails_soft {V K R : Type}
    (states : List (String × StateEntry V K R)) (fuel : Nat) (nm s : String)
    (a : ActionFn V K R) (nextF : R → V → Except PyExc (TransRet K))
    (prev : Option R) (extra : Option K) (v v1 : V) (r : R)
    (log : List LogEntry) :
    invokeAction a v extra = .ok (v1, r) → nextF r v1 = .ok (.name s) →
    statesGet states s = none →
    processLoop states ((fuel + 1) + 1) (some (.base nm a (some nextF))) prev extra v log
      = some ⟨.ok (some r), v1, log⟩ := by
  intro hA hN hMiss
  simp [processLoop, hA, hN, hMiss]

/-- C3 witness: the amended theorem applied to a concrete transition naming
the unregistered state "Missing". -/
theorem c3_witness :
    processLoop ([] : List (String × StateEntry Nat Nat Nat)) 3
      (some (.base "A" (constAction 1) (some (fun _ _ => .ok (.name "Missing")))))
      none none 0 []
      = some ⟨.ok (some 1), 0, []⟩ :=
  c3_unknown_name_fails_soft [] 1 "A" "Missing" (constAction 1)
    (fun _ _ => .ok (.name "Missing")) none none 0 0 1 [] rfl rfl rfl

/-- C4 (confirmed): when the child machine's `process()` returns normally,
`sub_state_machine_action` returns the merged parent bookkeeping: token
counters are added exactly once, the child's messages are appended after the
parent's existing messages, and the save record is appended — all before the
action returns the child's result. -/
theorem c4_merge {C M K R : Type}
    (subDefs : List (String × StateDefn (Vars C M R) K R)) (subInitial : String)
    (subContext : C) (subCtxMessages : List M) (fuel : Nat)
    (parent cv : Vars C M R) (subResult : Option R) (clog : List LogEntry)
    (m : Machine (Vars C M R) K R) :
    mkStateMachine subDefs subInitial = .ok m →
    stateMachineProcess m fuel ⟨subCtxMessages, [], 0, 0⟩
      = some ⟨.ok subResult, cv, clog⟩ →
    sub_state_machine_action subDefs subInitial subContext subCtxMessages
        "both" fuel parent
      = some (.ok
          ({ messages := parent.messages ++ cv.messages,
             analysisResult := parent.analysisResult ++ [.paired subContext subResult],
             totalInputTokens := parent.totalInputTokens + cv.totalInputTokens,
             totalOutputTokens := parent.totalOutputTokens + cv.totalOutputTokens },
           subResult)) := by
  intro h1 h2
  simp [sub_state_machine_action, h1, h2]

/-- C4 witness: the spec's concrete instance — child `inputTokens=5,
outputTokens=7, messages=[a,b]` merged into parent `inputTokens=2,
outputTokens=3, messages=[x]` yields `7, 10, [x,a,b]`. -/
theorem c4_witness :
    sub_state_machine_action c4SubDefs "S" "ctx" [] "both" 3 c4Parent
      = some (.ok (⟨["x", "a", "b"], [.paired "ctx" (some 42)], 7, 10⟩, some 42)) :=
  c4_merge c4SubDefs "S" "ctx" [] 3 c4Parent ⟨["a", "b"], [], 5, 7⟩ (some 42) [] _ rfl rfl

/-- C5 (confirmed): fed N consecutive empty-content responses with
`max_retries = N`, `reliable_parse` issues exactly N calls (the first
component of the returned pair counts issued calls), raises nothing, and
returns the `None` sentinel; the declared default for `max_retries` is 3. -/
theorem c5_retry_exhaustion (call : Nat → Except PyExc String) (N : Nat) :
    1 ≤ N → (∀ i, i < N → call i = .ok "") →
    reliable_parse call N = .ok (N, none) ∧ reliableParseDefaultMaxRetries = 3 := by
  intro _ hempty
  refine ⟨?_, rfl⟩
  have h := reliableParseGo_all_empty call N N 0 0 (by omega)
    (fun i hi => by simpa using hempty i hi)
  simpa [reliable_parse] using h

/-- C5 witness: three empty responses against the default three retries. -/
theorem c5_witness :
    reliable_parse (fun _ => .ok "") 3 = .ok (3, none)
    ∧ reliableParseDefaultMaxRetries = 3 :=
  c5_retry_exhaustion (fun _ => .ok "") 3 (by decide) (fun _ _ => rfl)

/-- C6 (confirmed): the designated fatal usage-limit `RuntimeError` raised by
an action (or a transition) is re-raised by `process()` with its type and
message unmodified — logged but never swallowed — and a child machine's fatal
error likewise propagates unchanged through `sub_state_machine_action`, which
neither merges nor saves anything on that path. -/
theorem c6_fatal_propagates {V K R C2 M2 K2 R2 : Type}
    (states : List (String × StateEntry V K R)) (fuel : Nat) (nm : String)
    (a : ActionFn V K R) (nOpt : Option (R → V → Except PyExc (TransRet K)))
    (nextF : R → V → Except PyExc (TransRet K))
    (prev : Option R) (extra : Option K) (v v1 : V) (r : R)
    (log : List LogEntry) (e : PyExc)
    (subDefs : List (String × StateDefn (Vars C2 M2 R2) K2 R2)) (subInitial : String)
    (subContext : C2) (subCtxMessages : List M2) (saveOption : String) (fuel2 : Nat)
    (parent : Vars C2 M2 R2) (m : Machine (Vars C2 M2 R2) K2 R2)
    (cv : Vars C2 M2 R2) (clog : List LogEntry) :
    (invokeAction a v extra = .error e → isUsageLimit e = true →
      processLoop states (fuel + 1) (some (.base nm a nOpt)) prev extra v log
        = some ⟨.error e, v, log ++ [.usageLimitReached nm]⟩)
    ∧ (invokeAction a v extra = .ok (v1, r) → nextF r v1 = .error e →
        isUsageLimit e = true →
        processLoop states (fuel + 1) (some (.base nm a (some nextF))) prev extra v log
          = some ⟨.error e, v1, log ++ [.usageLimitReached nm]⟩)
    ∧ (mkStateMachine subDefs subInitial = .ok m →
        stateMachineProcess m fuel2 ⟨subCtxMessages, [], 0, 0⟩
          = some ⟨.error e, cv, clog⟩ →
        sub_state_machine_action subDefs subInitial subContext subCtxMessages
            saveOption fuel2 parent
          = some (.error e)) := by
  refine ⟨fun hA hF => ?_, fun hA hN hF => ?_, fun h1 h2 => ?_⟩
  · simp [processLoop, hA, handleExc_fatal nm e v log hF]
  · simp [processLoop, hA, hN, handleExc_fatal nm e v1 log hF]
  · simp [sub_state_machine_action, h1, h2]

/-- C6 witness: a concrete fatal error raised in state B propagates out of
the loop with the same tag, and out of a concrete child machine through the
composer. -/
theorem c6_witness :
    processLoop ([] : List (String × StateEntry Nat Nat Nat)) 3
      (some (.base "B" (raiseAction (.runtimeError usageLimitMsg)) none))
      (some 1) none 0 []
      = some ⟨.error (.runtimeError usageLimitMsg), 0, [.usageLimitReached "B"]⟩
    ∧ sub_state_machine_action c6SubDefs "F" "ctx" ([] : List String) "both" 2 c4Parent
      = some (.error (.runtimeError usageLimitMsg)) := by
  constructor
  · exact (@c6_fatal_propagates Nat Nat Nat String String Nat Nat
      [] 2 "B" (raiseAction (.runtimeError usageLimitMsg)) none
      (fun _ _ => .ok .badShape) (some 1) none 0 0 0 []
      (.runtimeError usageLimitMsg)
      c6SubDefs "F" "ctx" [] "both" 2 c4Parent
      ⟨createStates c6SubDefs, some (.base "F" c6FatalAction none)⟩
      ⟨[], [], 0, 0⟩ [.usageLimitReached "F"]).1 rfl rfl
  · exact (@c6_fatal_propagates Nat Nat Nat String String Nat Nat
      [] 2 "B" (raiseAction (.runtimeError usageLimitMsg)) none
      (fun _ _ => .ok .badShape) (some 1) none 0 0 0 []
      (.runtimeError usageLimitMsg)
      c6SubDefs "F" "ctx" [] "both" 2 c4Parent
      ⟨createStates c6SubDefs, some (.base "F" c6FatalAction none)⟩
      ⟨[], [], 0, 0⟩ [.usageLimitReached "F"]).2.2 rfl rfl

/-- C7 counterexample.  A registry with no entry named Exit at all:
construction succeeds without raising (the constructor checks only the
initial state, never the presence of an Exit entry), refuting the claim that
a missing Exit entry is a fatal construction error. -/
theorem c7_counterexample :
    isOkE (mkStateMachine c7Defs "A") = true
    ∧ (c7Defs.map Prod.fst).contains "Exit" = false :=
  ⟨rfl, rfl⟩

/-- C7 (amended): construction raises (`ValueError`, for the unknown initial
state) exactly when the initial state is absent from the registry; no other
registry condition — in particular not the absence of an Exit entry — is
checked at construction time. -/
theorem c7_construction_checks_only_initial {V K R : Type}
    (defs : List (String × StateDefn V K R)) (initial : String) :
    isOkE (mkStateMachine defs initial)
      = (statesGet (createStates defs) initial).isSome := by
  cases h : statesGet (createStates defs) initial <;>
    simp [mkStateMachine, isOkE, h]

/-- C8: the composer accepts only three save options.  At the failing input
`save_option = "none"` it raises `ValueError` instead of discarding both and
completing — contradicting its own docstring (`action_utils.py:199`), which
lists "none" as valid, and unlike `chat_action` (`action_utils.py:135-136`),
which accepts it.  The three accepted options complete with the counters
merged. -/
theorem c8_save_option_none_rejected :
    sub_state_machine_action c4SubDefs "S" "ctx" [] "none" 3 c4Parent
      = some (.error (.valueError invalidSaveOptionMsg))
    ∧ sub_state_machine_action c4SubDefs "S" "ctx" [] "prompt" 3 c4Parent
      = some (.ok (⟨["x", "a", "b"], [.ctxOnly "ctx"], 7, 10⟩, some 42))
    ∧ sub_state_machine_action c4SubDefs "S" "ctx" [] "result" 3 c4Parent
      = some (.ok (⟨["x", "a", "b"], [.resOnly (some 42)], 7, 10⟩, some 42))
    ∧ sub_state_machine_action c4SubDefs "S" "ctx" [] "both" 3 c4Parent
      = some (.ok (⟨["x", "a", "b"], [.paired "ctx" (some 42)], 7, 10⟩, some 42)) :=
  ⟨rfl, rfl, rfl, rfl⟩

/-- C9 counterexample.  `c9Action` declares only the machine parameter, yet
because its body has one local variable, `co_varnames` has length 2 and the
loop passes the pending argument bag to it — refuting the claim that the
dispatch looks at the declared parameter list alone. -/
theorem c9_counterexample :
    c9Action.params = ["machine"]
    ∧ invokeAction c9Action 0 (some 5) = .ok (0, some 5)
    ∧ invokeAction c9Action 0 (some 5) ≠ c9Action.run 0 none := by
  refine ⟨rfl, rfl, ?_⟩
  decide

/-- C9 (amended): the loop selects the calling convention from
`len(co_varnames)`, which counts declared parameters plus local variables:
whenever that length exceeds 1 — even for an action whose only declared
parameter is the machine — the pending argument bag (if any) is passed as
keyword arguments; only when the length is at most 1 is the action invoked
with no extra arguments. -/
theorem c9_dispatch_by_co_varnames {V K R : Type}
    (a : ActionFn V K R) (v : V) (extra : Option K) :
    (1 < coVarnamesLen a → invokeAction a v extra = a.run v extra)
    ∧ (coVarnamesLen a ≤ 1 → invokeAction a v extra = a.run v none) := by
  constructor
  · intro h
    cases extra <;> simp [invokeAction, h]
  · intro h
    simp [invokeAction, Nat.not_lt.mpr h]

/-- C9 witness: the amended theorem applied to the machine-only action with
one local and a pending bag. -/
theorem c9_witness :
    invokeAction c9Action 0 (some 5) = c9Action.run 0 (some 5) :=
  (c9_dispatch_by_co_varnames c9Action 0 (some 5)).1 (by decide)

/-- C10 (confirmed): when the context carries a `messages` attribute, the
machine appends through that very reference — so after any sequence of
appends the context sees its original messages first, followed by everything
appended, and no other cell of the store changes; a context without the
attribute gives the machine a fresh, initially empty list living outside the
existing store, and appends through it leave every pre-existing cell
untouched. -/
theorem c10_messages_aliasing {M : Type} (store : List (List M)) (r : Nat)
    (ms : List M) :
    (r < store.length →
      (initMessages store (some r)).1 = store
      ∧ (initMessages store (some r)).2 = r
      ∧ storeGet (appendMessages store r ms) r = storeGet store r ++ ms)
    ∧ ((initMessages store none).1 = store ++ [[]]
       ∧ (initMessages store none).2 = store.length
       ∧ storeGet (store ++ [[]]) store.length = []
       ∧ (∀ i, i < store.length →
            storeGet (appendMessages (store ++ [[]]) store.length ms) i
              = storeGet store i)) := by
  constructor
  · intro h
    exact ⟨rfl, rfl, appendMessages_storeGet ms store r h⟩
  · refine ⟨rfl, rfl, storeGet_append_len store [], fun i hi => ?_⟩
    rw [appendMessages_storeGet_ne ms (store ++ [[]]) store.length i (by omega)]
    exact storeGet_append_lt store [] i hi

/-- C10 witness: a context owning `[x]` sees `[x, a, b]` after the machine
appends `a` then `b` through the shared list. -/
theorem c10_witness :
    storeGet (appendMessages [["x"]] 0 ["a", "b"]) 0 = ["x", "a", "b"] := by
  have h := (c10_messages_aliasing [["x"]] 0 ["a", "b"]).1 (by decide)
  exact h.2.2
